import Mathlib

/-!
Verification of the eventify backend (`src/server.js`): a shallow embedding of
the request handlers and their MongoDB collection operations, together with
proofs about the claims of the specification.

Modelling conventions:
* Mongo ObjectIds are opaque and modelled as naturals; the store carries a
  fresh-id counter (real ObjectIds are globally fresh).
* Collections are lists in natural (insertion) order; `find?`,
  `findOneAndUpdate`, `deleteOne` act on the first match, exactly as Mongo's
  single-document operations do on an unindexed collection scan.
* `timestamps: true` is modelled by a store clock stamping `createdAt` on
  booking creation (the only timestamp any handler reads).
* JS numbers are `JSNum`: NaN, the two infinities, or a finite value embedded
  in the rationals.  `Math.trunc`, `Math.min`, `Math.max` and the comparisons
  performed by the code are exact on finite doubles, so the embedding is
  lossless for the arithmetic the code performs.
* Absent / `null` / `undefined` request fields are `none`.
-/

namespace Eventify

/-- Model of a JavaScript number: NaN, an infinity, or a finite value. -/
inductive JSNum where
  | nan : JSNum
  | posInf : JSNum
  | negInf : JSNum
  | fin (q : ℚ) : JSNum
deriving DecidableEq, Repr

/-- `Number.isFinite`. -/
def JSNum.isFinite : JSNum → Bool
  | JSNum.fin _ => true
  | _ => false

/-- `Math.trunc` on a finite JS number: truncation toward zero.  A rational
`num/den` (with `den > 0`) truncates toward zero to `num.tdiv den`. -/
def jsTrunc (q : ℚ) : Int := Int.tdiv q.num (q.den : Int)

/-- `clampQty` from server.js: `Number(q)`; non-finite defaults to 1; otherwise
`Math.max(1, Math.min(10, Math.trunc(n)))`. -/
def clampQty : JSNum → Int
  | JSNum.fin q => max 1 (min 10 (jsTrunc q))
  | _ => 1

/-- Raw body of `POST /api/book`.  The quantity alias slots hold the value of
`Number(field)` for a present non-null field, `none` for absent/null (which
`??` skips); `clampQty` first applies `Number(·)`, so identifying a raw value
with its numeric coercion is lossless.  Title and email slots abstract the
`(x || "").toString()` plumbing as optional strings. -/
structure BookBody where
  eventTitle : Option String
  userEmail : Option String
  eventId : Option Nat
  quantity : Option JSNum
  qty : Option JSNum
  tickets : Option JSNum
  numTickets : Option JSNum
  ticketCount : Option JSNum
deriving DecidableEq, Repr

/-- The `??` alias chain of `pickQuantity`: first non-null field, else `1`. -/
def firstQtyAlias (b : BookBody) : JSNum :=
  ((((b.quantity.or b.qty).or b.tickets).or b.numTickets).or b.ticketCount).getD (JSNum.fin 1)

/-- `pickQuantity` from server.js. -/
def pickQuantity (b : BookBody) : Int := clampQty (firstQtyAlias b)

/-- Whitespace for JS `trim`. -/
def isJsWs (c : Char) : Bool := c.isWhitespace

/-- ASCII lowering of a single character, the model of `toLowerCase` (the code
only ever compares lowered strings against ASCII literals and email bytes). -/
def jsLowerChar (c : Char) : Char :=
  if 65 ≤ c.toNat ∧ c.toNat ≤ 90 then Char.ofNat (c.toNat + 32) else c

/-- `String.prototype.toLowerCase`. -/
def jsLowerStr (s : String) : String := ⟨s.data.map jsLowerChar⟩

/-- `String.prototype.trim` on the underlying character list. -/
def trimChars (l : List Char) : List Char :=
  ((l.dropWhile isJsWs).reverse.dropWhile isJsWs).reverse

/-- `String.prototype.trim`. -/
def jsTrimStr (s : String) : String := ⟨trimChars s.data⟩

/-- `sanitizeTitle` from server.js: `(s || "").toString().trim().slice(0, 200)`. -/
def sanitizeTitle (s : Option String) : String := ⟨(trimChars (s.getD "").data).take 200⟩

/-- The email normalization `(raw || "").toLowerCase().trim()`. -/
def normEmail (s : Option String) : String := jsTrimStr (jsLowerStr (s.getD ""))

/-- Decision procedure for the email regex `^[^\s@]+@[^\s@]+\.[^\s@]+$`.
The regex matches iff the string splits as `A ++ "@" ++ B ++ "." ++ C` with
`A`, `B`, `C` nonempty and free of whitespace and `@` (dots may occur inside
`B` and `C`).  Equivalently — the form computed here — the string has no
whitespace, exactly one `@` which is not its first character, and the part
after the `@` carries a `.` at some interior position (neither first nor last,
those positions being the nonempty `B` and `C`). -/
def emailTest (s : String) : Bool :=
  let cs := s.data
  cs.all (fun c => !c.isWhitespace) &&
  cs.count '@' == 1 &&
  !(cs.head? == some '@') &&
  (((cs.dropWhile (fun c => !(c == '@'))).tail.drop 1).dropLast.contains '.')

/-- JSON values as produced in responses. -/
inductive Json where
  | null : Json
  | bool (b : Bool) : Json
  | num (x : JSNum) : Json
  | str (s : String) : Json
  | arr (items : List Json) : Json
  | obj (fields : List (String × Json)) : Json

/-- Event `status` values. -/
inductive EStatus where
  | active : EStatus
  | deleted : EStatus
deriving DecidableEq, Repr

/-- Booking `status` values. -/
inductive BStatus where
  | confirmed : BStatus
  | cancelled : BStatus
deriving DecidableEq, Repr

/-- A stored Event document.  The schema timestamps are read by no handler and
are omitted. -/
structure Event where
  id : Nat
  title : String
  city : String
  date : String
  price : JSNum
  venue : String
  image : String
  description : String
  status : EStatus
deriving DecidableEq, Repr

/-- A stored Booking document. -/
structure Booking where
  id : Nat
  eventId : Option Nat
  eventTitle : String
  userEmail : String
  quantity : Int
  status : BStatus
  createdAt : Nat
deriving DecidableEq, Repr

/-- The document store: both collections in natural (insertion) order, the
fresh-identifier source and the clock. -/
structure Store where
  events : List Event
  bookings : List Booking
  nextId : Nat
  now : Nat
deriving DecidableEq, Repr

/-- The empty store the server starts from. -/
def initStore : Store := ⟨[], [], 1, 0⟩

/-- Insert a freshly created booking: append, mint the id, advance the clock. -/
def pushBooking (st : Store) (bk : Booking) : Store :=
  { st with bookings := st.bookings ++ [bk], nextId := st.nextId + 1, now := st.now + 1 }

/-- Insert a freshly created event: append, mint the id, advance the clock. -/
def pushEvent (st : Store) (ev : Event) : Store :=
  { st with events := st.events ++ [ev], nextId := st.nextId + 1, now := st.now + 1 }

/-- Mongo `findOneAndUpdate` with `new: true`: update the first document
matching `p`, returning the post-update document, or `none` when nothing
matches (the list is then unchanged). -/
def findOneAndUpdate (p : α → Bool) (f : α → α) : List α → Option α × List α
  | [] => (none, [])
  | x :: xs =>
    if p x then (some (f x), f x :: xs)
    else
      let r := findOneAndUpdate p f xs
      (r.1, x :: r.2)

/-- Mongo `updateMany`: update every matching document. -/
def updateMany (p : α → Bool) (f : α → α) (l : List α) : List α :=
  l.map (fun x => if p x then f x else x)

/-- Mongo `deleteMany`: remove every matching document. -/
def deleteMany (p : α → Bool) (l : List α) : List α :=
  l.filter (fun x => !p x)

/-- Mongo `deleteOne`, and the effect of `document.save()` on the matching
`_id`: the affected document is the first match (ids are unique in a real
store, so "first" is "the"). -/
def deleteOne (p : α → Bool) : List α → List α
  | [] => []
  | x :: xs => if p x then xs else x :: deleteOne p xs

/-- List update used for `document.save()`: replace the first match. -/
def updateFirst (p : α → Bool) (f : α → α) (l : List α) : List α :=
  (findOneAndUpdate p f l).2

/-- An HTTP response: status code plus JSON body. -/
structure HttpResp where
  status : Nat
  body : Json

/-- The uniform failure envelope `{ ok: false, error: msg }`. -/
def errJson (msg : String) : Json :=
  Json.obj [("ok", Json.bool false), ("error", Json.str msg)]

/-- Wire form of an event status. -/
def EStatus.asStr : EStatus → String
  | EStatus.active => "active"
  | EStatus.deleted => "deleted"

/-- Wire form of a booking status. -/
def BStatus.asStr : BStatus → String
  | BStatus.confirmed => "confirmed"
  | BStatus.cancelled => "cancelled"

/-- An id on the wire. -/
def idJson (i : Nat) : Json := Json.num (JSNum.fin (i : ℚ))

/-- An optional id on the wire. -/
def optIdJson : Option Nat → Json
  | none => Json.null
  | some i => idJson i

/-- An Event as serialized into a response. -/
def eventToJson (e : Event) : Json :=
  Json.obj [("_id", idJson e.id), ("title", Json.str e.title), ("city", Json.str e.city),
    ("date", Json.str e.date), ("price", Json.num e.price), ("venue", Json.str e.venue),
    ("image", Json.str e.image), ("description", Json.str e.description),
    ("status", Json.str e.status.asStr)]

/-- A Booking as serialized into a response. -/
def bookingToJson (b : Booking) : Json :=
  Json.obj [("_id", idJson b.id), ("eventId", optIdJson b.eventId),
    ("eventTitle", Json.str b.eventTitle), ("userEmail", Json.str b.userEmail),
    ("quantity", Json.num (JSNum.fin (b.quantity : ℚ))), ("status", Json.str b.status.asStr),
    ("createdAt", Json.num (JSNum.fin (b.createdAt : ℚ)))]

/-- The wire shape of a listed booking (GET /api/bookings): every stored field
preserved, plus a `date` alias carrying the creation timestamp. -/
structure ShapedBooking where
  id : Nat
  eventId : Option Nat
  eventTitle : String
  userEmail : String
  quantity : Int
  status : BStatus
  date : Nat
  createdAt : Nat
deriving DecidableEq, Repr

/-- The shaping map of GET /api/bookings. -/
def shapeBooking (b : Booking) : ShapedBooking :=
  ⟨b.id, b.eventId, b.eventTitle, b.userEmail, b.quantity, b.status, b.createdAt, b.createdAt⟩

/-- A shaped booking as serialized into the listing response. -/
def shapedToJson (b : ShapedBooking) : Json :=
  Json.obj [("_id", idJson b.id), ("eventId", optIdJson b.eventId),
    ("eventTitle", Json.str b.eventTitle), ("userEmail", Json.str b.userEmail),
    ("quantity", Json.num (JSNum.fin (b.quantity : ℚ))), ("status", Json.str b.status.asStr),
    ("date", Json.num (JSNum.fin (b.date : ℚ))), ("createdAt", Json.num (JSNum.fin (b.createdAt : ℚ)))]

/-- The `min: 0` schema validator on the price (`v >= 0` in JS). -/
def jsGe0 : JSNum → Bool
  | JSNum.fin q => decide (0 ≤ q)
  | JSNum.posInf => true
  | _ => false

/-- `Booking.create`: the schema applies the trim/lowercase setters and then
validates `required`, `maxlength: 200` and the email regex (quantity must sit
in `[1, 10]`, status defaults to confirmed).  `none` is a rejected insert,
which the handler surfaces as a 500. -/
def bookingCreate (st : Store) (eventTitle userEmail : String) (quantity : Int)
    (eventId : Option Nat) : Option (Store × Booking) :=
  let t := jsTrimStr eventTitle
  let e := jsTrimStr (jsLowerStr userEmail)
  if (t ≠ "" ∧ t.data.length ≤ 200 ∧ e ≠ "" ∧ e.data.length ≤ 200 ∧ emailTest e = true) ∧
     (1 ≤ quantity ∧ quantity ≤ 10) then
    let b : Booking := ⟨st.nextId, eventId, t, e, quantity, BStatus.confirmed, st.now⟩
    some (pushBooking st b, b)
  else none

/-- `Event.create`: trim setters, then `required`, the `maxlength` bounds and
`min: 0` on the price; status defaults to active. -/
def eventCreate (st : Store) (title city date venue image description : String)
    (price : JSNum) : Option (Store × Event) :=
  let t := jsTrimStr title
  let c := jsTrimStr city
  let d := jsTrimStr date
  let v := jsTrimStr venue
  let im := jsTrimStr image
  let de := jsTrimStr description
  if t ≠ "" ∧ t.data.length ≤ 200 ∧ c ≠ "" ∧ c.data.length ≤ 100 ∧ d ≠ "" ∧
     v ≠ "" ∧ v.data.length ≤ 200 ∧ im.data.length ≤ 500 ∧ de.data.length ≤ 1000 ∧
     jsGe0 price = true then
    let e : Event := ⟨st.nextId, t, c, d, price, v, im, de, EStatus.active⟩
    some (pushEvent st e, e)
  else none

/-- GET /: liveness blurb. -/
def rootHandler (st : Store) : Store × HttpResp :=
  (st, ⟨200, Json.obj [("ok", Json.bool true), ("service", Json.str "eventify-backend"),
    ("time", Json.str (toString st.now))]⟩)

/-- GET /api/health. -/
def healthHandler (st : Store) : Store × HttpResp :=
  (st, ⟨200, Json.obj [("ok", Json.bool true), ("time", Json.str (toString st.now))]⟩)

/-- GET /api/events: active events sorted ascending by the `date` string,
returned as a bare JSON array. -/
def eventsListHandler (st : Store) : Store × HttpResp :=
  let list := List.insertionSort (fun a b : Event => a.date ≤ b.date)
    (st.events.filter (fun e => e.status == EStatus.active))
  (st, ⟨200, Json.arr (list.map eventToJson)⟩)

/-- Raw body of POST /api/events. -/
structure EventBody where
  title : Option String
  city : Option String
  date : Option String
  price : Option JSNum
  venue : Option String
  image : Option String
  description : Option String
deriving DecidableEq, Repr

/-- POST /api/events: truthiness check on the five required fields (`price`
compared against null only, so 0 passes), then `Event.create`. -/
def eventsCreateHandler (st : Store) (b : EventBody) : Store × HttpResp :=
  if b.title.getD "" = "" ∨ b.city.getD "" = "" ∨ b.date.getD "" = "" ∨
     b.price = none ∨ b.venue.getD "" = "" then
    (st, ⟨400, errJson "title, city, date, price, venue required"⟩)
  else
    match eventCreate st (b.title.getD "") (b.city.getD "") (b.date.getD "")
        (b.venue.getD "") (b.image.getD "") (b.description.getD "")
        (b.price.getD JSNum.nan) with
    | some (st2, e) =>
      (st2, ⟨201, Json.obj [("ok", Json.bool true), ("event", eventToJson e)]⟩)
    | none => (st, ⟨500, errJson "Server error"⟩)

/-- DELETE /api/events/:id?mode=soft|hard.  `(req.query.mode || "soft")` makes
an absent or empty mode "soft"; anything other than "hard" after lowering
takes the soft branch. -/
def deleteEventHandler (st : Store) (id : Nat) (mode : Option String) : Store × HttpResp :=
  let m := jsLowerStr (if mode.getD "" = "" then "soft" else mode.getD "")
  match st.events.find? (fun e => e.id == id) with
  | none => (st, ⟨404, errJson "Event not found"⟩)
  | some ev =>
    if ev.status == EStatus.deleted then (st, ⟨404, errJson "Event not found"⟩)
    else if m = "hard" then
      ({ st with
          events := deleteOne (fun e => e.id == id) st.events,
          bookings := deleteMany
            (fun b => b.eventId == some id || b.eventTitle == ev.title) st.bookings },
       ⟨200, Json.obj [("ok", Json.bool true), ("deleted", Json.str "hard"), ("eventId", idJson id)]⟩)
    else
      ({ st with
          events := updateFirst (fun e => e.id == id)
            (fun e => { e with status := EStatus.deleted }) st.events,
          bookings := updateMany
            (fun b => (b.eventId == some id || b.eventTitle == ev.title) &&
              !(b.status == BStatus.cancelled))
            (fun b => { b with status := BStatus.cancelled }) st.bookings },
       ⟨200, Json.obj [("ok", Json.bool true), ("deleted", Json.str "soft"), ("eventId", idJson id)]⟩)

/-- POST /api/book. -/
def bookHandler (st : Store) (b : BookBody) : Store × HttpResp :=
  let eventTitle := sanitizeTitle b.eventTitle
  let userEmail := normEmail b.userEmail
  let quantity := pickQuantity b
  if eventTitle = "" ∨ userEmail = "" then
    (st, ⟨400, errJson "eventTitle and userEmail are required"⟩)
  else if emailTest userEmail = false then
    (st, ⟨400, errJson "Invalid email"⟩)
  else
    match bookingCreate st eventTitle userEmail quantity b.eventId with
    | some (st2, doc) =>
      (st2, ⟨201, Json.obj [("ok", Json.bool true), ("booking", bookingToJson doc)]⟩)
    | none => (st, ⟨500, errJson "Server error"⟩)

/-- GET /api/bookings?userEmail=...: the user's bookings sorted descending by
`createdAt`, shaped, returned as a bare JSON array. -/
def bookingsListHandler (st : Store) (userEmailQ : Option String) : Store × HttpResp :=
  let userEmail := normEmail userEmailQ
  if userEmail = "" then (st, ⟨400, errJson "userEmail query param is required"⟩)
  else
    let list := List.insertionSort (fun a b : Booking => b.createdAt ≤ a.createdAt)
      (st.bookings.filter (fun b => b.userEmail == userEmail))
    (st, ⟨200, Json.arr (list.map (fun b => shapedToJson (shapeBooking b)))⟩)

/-- The `$set: { status: "cancelled" }` update. -/
def setCancelled (b : Booking) : Booking := { b with status := BStatus.cancelled }

/-- DELETE /api/booking/:id. -/
def cancelByIdHandler (st : Store) (id : Nat) : Store × HttpResp :=
  let r := findOneAndUpdate (fun b => b.id == id) setCancelled st.bookings
  match r.1 with
  | none => (st, ⟨404, errJson "Booking not found"⟩)
  | some doc =>
    ({ st with bookings := r.2 },
     ⟨200, Json.obj [("ok", Json.bool true), ("booking", bookingToJson doc)]⟩)

/-- The filter selected by DELETE /api/booking and POST /api/cancel: by id when
a (nonempty) bookingId is supplied, else by user+title excluding cancelled
bookings, else nothing (a 400). -/
def cancelFilter (bookingId : Option Nat) (userEmail eventTitle : String) :
    Option (Booking → Bool) :=
  match bookingId with
  | some bid => some (fun b => b.id == bid)
  | none =>
    if userEmail ≠ "" ∧ eventTitle ≠ "" then
      some (fun b => b.userEmail == userEmail && b.eventTitle == eventTitle &&
        !(b.status == BStatus.cancelled))
    else none

/-- Common tail of DELETE /api/booking and POST /api/cancel. -/
def cancelCore (st : Store) (bookingId : Option Nat) (userEmail eventTitle : String) :
    Store × HttpResp :=
  match cancelFilter bookingId userEmail eventTitle with
  | none => (st, ⟨400, errJson "Provide bookingId or (userEmail and eventTitle) to cancel"⟩)
  | some p =>
    let r := findOneAndUpdate p setCancelled st.bookings
    match r.1 with
    | none => (st, ⟨404, errJson "Booking not found"⟩)
    | some doc =>
      ({ st with bookings := r.2 },
       ⟨200, Json.obj [("ok", Json.bool true), ("booking", bookingToJson doc)]⟩)

/-- DELETE /api/booking?bookingId=  or  ?userEmail=&eventTitle=.  A present
`bookingId` models a query value that is nonempty after trim. -/
def cancelByQueryHandler (st : Store) (bookingId : Option Nat)
    (userEmail eventTitle : Option String) : Store × HttpResp :=
  cancelCore st bookingId (normEmail userEmail) (sanitizeTitle eventTitle)

/-- Raw body of POST /api/cancel; `mongoId` and `plainId` model the `_id` and
`id` alias fields of the `||` fallback chain. -/
structure CancelBody where
  bookingId : Option Nat
  mongoId : Option Nat
  plainId : Option Nat
  userEmail : Option String
  eventTitle : Option String
deriving DecidableEq, Repr

/-- POST /api/cancel: `(body.bookingId || body._id || body.id || "")` takes the
first present id, then the same logic as the DELETE variant. -/
def cancelPostHandler (st : Store) (b : CancelBody) : Store × HttpResp :=
  cancelCore st ((b.bookingId.or b.mongoId).or b.plainId)
    (normEmail b.userEmail) (sanitizeTitle b.eventTitle)

/-- One request to the server: every modelled endpoint, plus the 404 fallback. -/
inductive Req where
  | root : Req
  | health : Req
  | listEvents : Req
  | createEvent (b : EventBody) : Req
  | deleteEvent (id : Nat) (mode : Option String) : Req
  | book (b : BookBody) : Req
  | listBookings (userEmail : Option String) : Req
  | cancelById (id : Nat) : Req
  | cancelByQuery (bookingId : Option Nat) (userEmail eventTitle : Option String) : Req
  | cancelPost (b : CancelBody) : Req
  | unmatched : Req
deriving DecidableEq, Repr

/-- Dispatch one request to its handler. -/
def handle (st : Store) : Req → Store × HttpResp
  | Req.root => rootHandler st
  | Req.health => healthHandler st
  | Req.listEvents => eventsListHandler st
  | Req.createEvent b => eventsCreateHandler st b
  | Req.deleteEvent i mode => deleteEventHandler st i mode
  | Req.book b => bookHandler st b
  | Req.listBookings q => bookingsListHandler st q
  | Req.cancelById i => cancelByIdHandler st i
  | Req.cancelByQuery bid ue et => cancelByQueryHandler st bid ue et
  | Req.cancelPost b => cancelPostHandler st b
  | Req.unmatched => (st, ⟨404, errJson "Not found"⟩)

/-- Run a request sequence, keeping only the store. -/
def runReqs (rs : List Req) (st : Store) : Store :=
  rs.foldl (fun s r => (handle s r).1) st

/-- A store state the server can actually be in. -/
def Reachable (st : Store) : Prop := ∃ rs : List Req, runReqs rs initStore = st

/-- Recognizer for the success envelope: an object whose first field is
`ok: true`. -/
def isOkTrueObj : Json → Bool
  | Json.obj (("ok", Json.bool true) :: _) => true
  | _ => false

/-- Recognizer for the failure envelope `{ ok: false, error: <message> }`. -/
def isErrObj : Json → Bool
  | Json.obj (("ok", Json.bool false) :: ("error", Json.str _) :: []) => true
  | _ => false

/-- Well-formedness every reachable store enjoys: all stored ids were minted
by the fresh-id counter, and ids are unique within each collection. -/
def WF (s : Store) : Prop :=
  (∀ e ∈ s.events, e.id < s.nextId) ∧ (∀ b ∈ s.bookings, b.id < s.nextId) ∧
  (s.events.map Event.id).Nodup ∧ (s.bookings.map Booking.id).Nodup

/-- What one request preserves: the id counter never decreases,
well-formedness survives, and a status that is uniformly cancelled (deleted)
under an already-minted id stays so. -/
def StepOK (st st2 : Store) : Prop :=
  st.nextId ≤ st2.nextId ∧ (WF st → WF st2) ∧
  (∀ i, i < st.nextId →
    (∀ b ∈ st.bookings, b.id = i → b.status = BStatus.cancelled) →
    ∀ b2 ∈ st2.bookings, b2.id = i → b2.status = BStatus.cancelled) ∧
  (∀ i, i < st.nextId →
    (∀ e ∈ st.events, e.id = i → e.status = EStatus.deleted) →
    ∀ e2 ∈ st2.events, e2.id = i → e2.status = EStatus.deleted)

instance : IsTotal Booking (fun a b => b.createdAt ≤ a.createdAt) :=
  ⟨fun a b => Nat.le_total b.createdAt a.createdAt⟩

instance : IsTrans Booking (fun a b => b.createdAt ≤ a.createdAt) :=
  ⟨fun _ _ _ h1 h2 => Nat.le_trans h2 h1⟩

/-! ### Lemmas about the collection primitives -/

lemma findOneAndUpdate_fst {α : Type} (p : α → Bool) (f : α → α) (l : List α) :
    (findOneAndUpdate p f l).1 = (l.find? p).map f := by
  induction l with
  | nil => rfl
  | cons x xs ih =>
    by_cases h : p x
    · simp [findOneAndUpdate, h, List.find?_cons_of_pos]
    · simp [findOneAndUpdate, h, List.find?_cons_of_neg, ih]

lemma findOneAndUpdate_snd_of_all_false {α : Type} (p : α → Bool) (f : α → α)
    (l : List α) (h : ∀ x ∈ l, p x = false) : (findOneAndUpdate p f l).2 = l := by
  induction l with
  | nil => rfl
  | cons x xs ih =>
    have hx : p x = false := h x (List.mem_cons_self x xs)
    simp [findOneAndUpdate, hx, ih (fun y hy => h y (List.mem_cons_of_mem x hy))]

lemma findOneAndUpdate_append_split {α : Type} (p : α → Bool) (f : α → α)
    (l1 : List α) (x : α) (l2 : List α)
    (h1 : ∀ y ∈ l1, p y = false) (hx : p x = true) :
    findOneAndUpdate p f (l1 ++ x :: l2) = (some (f x), l1 ++ f x :: l2) := by
  induction l1 with
  | nil => simp [findOneAndUpdate, hx]
  | cons a l ih =>
    have ha : p a = false := h1 a (List.mem_cons_self a l)
    have := ih (fun y hy => h1 y (List.mem_cons_of_mem a hy))
    simp [findOneAndUpdate, ha, this]

lemma mem_findOneAndUpdate_snd {α : Type} {p : α → Bool} {f : α → α} {l : List α} {y : α}
    (hy : y ∈ (findOneAndUpdate p f l).2) : y ∈ l ∨ ∃ x ∈ l, p x = true ∧ y = f x := by
  induction l with
  | nil => simp [findOneAndUpdate] at hy
  | cons x xs ih =>
    by_cases h : p x
    · simp only [findOneAndUpdate, h, if_pos, List.mem_cons] at hy
      rcases hy with hy | hy
      · exact Or.inr ⟨x, List.mem_cons_self x xs, h, hy⟩
      · exact Or.inl (List.mem_cons_of_mem x hy)
    · simp only [findOneAndUpdate, h, if_neg, Bool.false_eq_true, not_false_iff,
        List.mem_cons] at hy
      rcases hy with hy | hy
      · exact Or.inl (hy ▸ List.mem_cons_self x xs)
      · rcases ih hy with h1 | ⟨x2, hx2, hp, he⟩
        · exact Or.inl (List.mem_cons_of_mem x h1)
        · exact Or.inr ⟨x2, List.mem_cons_of_mem x hx2, hp, he⟩

lemma mem_deleteOne {α : Type} {p : α → Bool} {l : List α} {y : α}
    (hy : y ∈ deleteOne p l) : y ∈ l := by
  induction l with
  | nil => simp [deleteOne] at hy
  | cons x xs ih =>
    by_cases h : p x
    · simp only [deleteOne, h, if_pos] at hy
      exact List.mem_cons_of_mem x hy
    · simp only [deleteOne, h, if_neg, Bool.false_eq_true, not_false_iff, List.mem_cons] at hy
      rcases hy with hy | hy
      · exact hy ▸ List.mem_cons_self x xs
      · exact List.mem_cons_of_mem x (ih hy)

lemma updateFirst_nil {α : Type} (p : α → Bool) (f : α → α) : updateFirst p f [] = [] := rfl

lemma updateFirst_cons {α : Type} (p : α → Bool) (f : α → α) (x : α) (xs : List α) :
    updateFirst p f (x :: xs) =
      if p x then f x :: xs else x :: updateFirst p f xs := by
  by_cases h : p x <;> simp [updateFirst, findOneAndUpdate, h]

lemma mem_updateFirst {α : Type} {p : α → Bool} {f : α → α} {l : List α} {y : α}
    (hy : y ∈ updateFirst p f l) : y ∈ l ∨ ∃ x ∈ l, p x = true ∧ y = f x :=
  mem_findOneAndUpdate_snd hy

lemma find?_key_unique {α : Type} (key : α → Nat) (k : Nat) (l : List α) (x : α)
    (hN : (l.map key).Nodup) (hx : x ∈ l) (hk : key x = k) :
    l.find? (fun y => key y == k) = some x := by
  induction l with
  | nil => cases hx
  | cons a as ih =>
    obtain ⟨hhead, htail⟩ : (∀ y ∈ as, ¬ key y = key a) ∧ (as.map key).Nodup := by
      simpa using hN
    rcases List.mem_cons.mp hx with rfl | hxs
    · simp [List.find?_cons, hk]
    · have hka : (key a == k) = false := by
        simp only [beq_eq_false_iff_ne, ne_eq]
        intro h
        exact hhead x hxs (by rw [hk, h])
      simp [List.find?_cons, hka, ih htail hxs]

lemma deleteOne_eq_filter_of_unique {α : Type} (key : α → Nat) (k : Nat) (l : List α)
    (hN : (l.map key).Nodup) :
    deleteOne (fun x => key x == k) l = l.filter (fun x => !(key x == k)) := by
  induction l with
  | nil => rfl
  | cons a as ih =>
    obtain ⟨hhead, htail⟩ : (∀ y ∈ as, ¬ key y = key a) ∧ (as.map key).Nodup := by
      simpa using hN
    by_cases h : key a = k
    · have hall : ∀ y ∈ as, (!(key y == k)) = true := by
        intro y hy
        simp only [Bool.not_eq_true', beq_eq_false_iff_ne, ne_eq]
        intro hkk
        exact hhead y hy (by rw [hkk, h])
      simp [deleteOne, List.filter_cons, h, List.filter_eq_self.mpr hall]
    · simp [deleteOne, List.filter_cons, h, ih htail]

lemma updateFirst_eq_map_of_unique {α : Type} (key : α → Nat) (k : Nat) (f : α → α)
    (l : List α) (hN : (l.map key).Nodup) :
    updateFirst (fun x => key x == k) f l =
      l.map (fun x => if key x = k then f x else x) := by
  induction l with
  | nil => rfl
  | cons a as ih =>
    obtain ⟨hhead, htail⟩ : (∀ y ∈ as, ¬ key y = key a) ∧ (as.map key).Nodup := by
      simpa using hN
    by_cases h : key a = k
    · have hall : ∀ y ∈ as, (fun x => if key x = k then f x else x) y = y := by
        intro y hy
        have : ¬ key y = k := by
          intro hkk
          exact hhead y hy (by rw [hkk, h])
        simp [this]
      rw [updateFirst_cons]
      simp only [h, beq_self_eq_true, if_pos, List.map_cons, if_pos rfl]
      rw [List.map_congr_left hall, List.map_id']
    · rw [updateFirst_cons]
      have hka : (key a == k) = false := by simpa using h
      rw [ih htail]
      simp [hka, h]

/-! ### Lemmas about the create operations -/

lemma bookingCreate_some {st st2 : Store} {t e : String} {q : Int} {eid : Option Nat}
    {bk : Booking} (h : bookingCreate st t e q eid = some (st2, bk)) :
    bk.id = st.nextId ∧ bk.status = BStatus.confirmed ∧ bk.quantity = q ∧
      st2 = pushBooking st bk := by
  simp only [bookingCreate] at h
  split at h
  · rw [Option.some_inj, Prod.mk.injEq] at h
    obtain ⟨h1, h2⟩ := h
    subst h2
    exact ⟨rfl, rfl, rfl, h1.symm⟩
  · cases h

lemma bookingCreate_none_of_fail {st : Store} {t e : String} {q : Int} {eid : Option Nat}
    (h : ¬ ((jsTrimStr t ≠ "" ∧ (jsTrimStr t).data.length ≤ 200 ∧
      jsTrimStr (jsLowerStr e) ≠ "" ∧ (jsTrimStr (jsLowerStr e)).data.length ≤ 200 ∧
      emailTest (jsTrimStr (jsLowerStr e)) = true) ∧ (1 ≤ q ∧ q ≤ 10))) :
    bookingCreate st t e q eid = none := by
  unfold bookingCreate
  exact if_neg h

lemma bookingCreate_isSome_iff (st : Store) (t e : String) (q : Int) (eid : Option Nat)
    (hq : 1 ≤ q ∧ q ≤ 10) :
    (bookingCreate st t e q eid).isSome =
      decide (jsTrimStr t ≠ "" ∧ (jsTrimStr t).data.length ≤ 200 ∧
        jsTrimStr (jsLowerStr e) ≠ "" ∧ (jsTrimStr (jsLowerStr e)).data.length ≤ 200 ∧
        emailTest (jsTrimStr (jsLowerStr e)) = true) := by
  unfold bookingCreate
  by_cases hc : jsTrimStr t ≠ "" ∧ (jsTrimStr t).data.length ≤ 200 ∧
      jsTrimStr (jsLowerStr e) ≠ "" ∧ (jsTrimStr (jsLowerStr e)).data.length ≤ 200 ∧
      emailTest (jsTrimStr (jsLowerStr e)) = true
  · rw [if_pos ⟨hc, hq⟩]
    simp only [Option.isSome_some]
    exact (decide_eq_true hc).symm
  · rw [if_neg (fun hh => hc hh.1)]
    simp only [Option.isSome_none]
    exact (decide_eq_false hc).symm

lemma eventCreate_some {st st2 : Store} {t c d v im de : String} {p : JSNum}
    {ev : Event} (h : eventCreate st t c d v im de p = some (st2, ev)) :
    ev.id = st.nextId ∧ ev.status = EStatus.active ∧
      st2 = pushEvent st ev := by
  simp only [eventCreate] at h
  split at h
  · rw [Option.some_inj, Prod.mk.injEq] at h
    obtain ⟨h1, h2⟩ := h
    subst h2
    exact ⟨rfl, rfl, h1.symm⟩
  · cases h

/-! ### C7: quantity selection and clamping -/

lemma jsTrunc_intCast (n : Int) : jsTrunc (n : ℚ) = n := by
  simp [jsTrunc, Rat.num_intCast, Rat.den_intCast, Int.tdiv_one]

lemma clampQty_ge_one (x : JSNum) : 1 ≤ clampQty x := by
  cases x <;> simp [clampQty]

lemma clampQty_le_ten (x : JSNum) : clampQty x ≤ 10 := by
  cases x <;> simp [clampQty]

/-- C7: the booking quantity is `clampQty` of the first present alias field
(default 1), always an integer in `[1, 10]`; a created booking stores exactly
that quantity; and the response status never depends on the quantity fields
(out-of-range input is never rejected). -/
theorem C7_quantity_clamping (st : Store) (b b2 : BookBody)
    (hsame : b2.eventTitle = b.eventTitle ∧ b2.userEmail = b.userEmail ∧
      b2.eventId = b.eventId) :
    (1 ≤ pickQuantity b ∧ pickQuantity b ≤ 10) ∧
    pickQuantity b = clampQty (firstQtyAlias b) ∧
    (∀ st2 resp, bookHandler st b = (st2, resp) → resp.status = 201 →
      ∃ bk : Booking, st2.bookings = st.bookings ++ [bk] ∧
        bk.quantity = pickQuantity b) ∧
    (bookHandler st b).2.status = (bookHandler st b2).2.status := by
  refine ⟨⟨clampQty_ge_one _, clampQty_le_ten _⟩, rfl, ?_, ?_⟩
  · intro st2 resp hrun h201
    simp only [bookHandler] at hrun
    split at hrun
    · rw [Prod.mk.injEq] at hrun
      rw [← hrun.2] at h201
      cases h201
    · split at hrun
      · rw [Prod.mk.injEq] at hrun
        rw [← hrun.2] at h201
        cases h201
      · split at hrun
        next st3 bk heq =>
          rw [Prod.mk.injEq] at hrun
          obtain ⟨h1, h2, h3, h4⟩ := bookingCreate_some heq
          refine ⟨bk, ?_, h3⟩
          rw [← hrun.1, h4]
          rfl
        next heq =>
          rw [Prod.mk.injEq] at hrun
          rw [← hrun.2] at h201
          cases h201
  · have hq : 1 ≤ pickQuantity b ∧ pickQuantity b ≤ 10 :=
      ⟨clampQty_ge_one _, clampQty_le_ten _⟩
    have hq2 : 1 ≤ pickQuantity b2 ∧ pickQuantity b2 ≤ 10 :=
      ⟨clampQty_ge_one _, clampQty_le_ten _⟩
    simp only [bookHandler]
    rw [hsame.1, hsame.2.1, hsame.2.2]
    by_cases h1 : sanitizeTitle b.eventTitle = "" ∨ normEmail b.userEmail = ""
    · rw [if_pos h1, if_pos h1]
    · rw [if_neg h1, if_neg h1]
      by_cases h2 : emailTest (normEmail b.userEmail) = false
      · rw [if_pos h2, if_pos h2]
      · rw [if_neg h2, if_neg h2]
        have hiff := (bookingCreate_isSome_iff st (sanitizeTitle b.eventTitle)
            (normEmail b.userEmail) (pickQuantity b) b.eventId hq).trans
          (bookingCreate_isSome_iff st (sanitizeTitle b.eventTitle)
            (normEmail b.userEmail) (pickQuantity b2) b.eventId hq2).symm
        rcases hc1 : bookingCreate st (sanitizeTitle b.eventTitle)
            (normEmail b.userEmail) (pickQuantity b) b.eventId with _ | ⟨st3, bk⟩ <;>
          rcases hc2 : bookingCreate st (sanitizeTitle b.eventTitle)
              (normEmail b.userEmail) (pickQuantity b2) b.eventId with _ | ⟨st4, bk2⟩
        · rfl
        · simp [hc1, hc2] at hiff
        · simp [hc1, hc2] at hiff
        · rfl

/-- Witness for C7 at a concrete body: quantity 100 clamps to 10 and the
request is accepted with the same status as quantity 2. -/
theorem C7_quantity_clamping_witness :
    1 ≤ pickQuantity ⟨some "Jazz Night", some "a@b.com", none,
        some (JSNum.fin 100), none, none, none, none⟩ ∧
      pickQuantity ⟨some "Jazz Night", some "a@b.com", none,
        some (JSNum.fin 100), none, none, none, none⟩ ≤ 10 := by
  exact (C7_quantity_clamping initStore
    ⟨some "Jazz Night", some "a@b.com", none, some (JSNum.fin 100), none, none, none, none⟩
    ⟨some "Jazz Night", some "a@b.com", none, some (JSNum.fin 2), none, none, none, none⟩
    ⟨rfl, rfl, rfl⟩).1

/-! ### C5: cancellation by id -/

lemma cancelByIdHandler_found (st : Store) (i : Nat) (l1 : List Booking) (b0 : Booking)
    (l2 : List Booking) (hsplit : st.bookings = l1 ++ b0 :: l2)
    (hpre : ∀ y ∈ l1, (y.id == i) = false) (hp0 : (b0.id == i) = true) :
    cancelByIdHandler st i =
      ({ st with bookings := l1 ++ setCancelled b0 :: l2 },
       ⟨200, Json.obj [("ok", Json.bool true),
         ("booking", bookingToJson (setCancelled b0))]⟩) := by
  have hrun := findOneAndUpdate_append_split (fun y => y.id == i) setCancelled l1 b0 l2 hpre hp0
  simp only [cancelByIdHandler, hsplit, hrun]

lemma cancelByIdHandler_missing (st : Store) (i : Nat)
    (hall : ∀ b ∈ st.bookings, b.id ≠ i) :
    cancelByIdHandler st i = (st, ⟨404, errJson "Booking not found"⟩) := by
  have hfind : st.bookings.find? (fun y => y.id == i) = none := by
    rw [List.find?_eq_none]
    intro x hx
    simp [hall x hx]
  have h1 : (findOneAndUpdate (fun y => y.id == i) setCancelled st.bookings).1 = none := by
    rw [findOneAndUpdate_fst, hfind]
    rfl
  have h2 := findOneAndUpdate_snd_of_all_false (fun y => y.id == i) setCancelled st.bookings
    (fun x hx => by simp [hall x hx])
  simp only [cancelByIdHandler, h1]

/-- C5: cancelling a booking by id sets the matched record's status to
cancelled unconditionally whenever some record carries the id — so the
operation is idempotent: a second cancel by the same id succeeds and leaves
the same terminal store — and it fails with 404 leaving the store unchanged
when no record carries the id. -/
theorem C5_cancel_by_id (st : Store) (i : Nat) :
    ((∃ b ∈ st.bookings, b.id = i) →
      ∃ l1 b0 l2, st.bookings = l1 ++ b0 :: l2 ∧ b0.id = i ∧ (∀ y ∈ l1, y.id ≠ i) ∧
        (cancelByIdHandler st i).1 = { st with bookings := l1 ++ setCancelled b0 :: l2 } ∧
        (cancelByIdHandler st i).2.status = 200 ∧
        (cancelByIdHandler (cancelByIdHandler st i).1 i).1 = (cancelByIdHandler st i).1 ∧
        (cancelByIdHandler (cancelByIdHandler st i).1 i).2.status = 200) ∧
    ((∀ b ∈ st.bookings, b.id ≠ i) →
      cancelByIdHandler st i = (st, ⟨404, errJson "Booking not found"⟩)) := by
  constructor
  · rintro ⟨b, hb, hbi⟩
    have hsome : (st.bookings.find? (fun y => y.id == i)).isSome := by
      rw [List.find?_isSome]
      exact ⟨b, hb, by simp [hbi]⟩
    obtain ⟨b0, hfind⟩ := Option.isSome_iff_exists.mp hsome
    obtain ⟨hp0, l1, l2, hsplit, hpre⟩ := List.find?_eq_some.mp hfind
    have hpre2 : ∀ y ∈ l1, (y.id == i) = false := by
      intro y hy
      have := hpre y hy
      simpa using this
    have h1 := cancelByIdHandler_found st i l1 b0 l2 hsplit hpre2 hp0
    have hsplit2 : ((cancelByIdHandler st i).1).bookings = l1 ++ setCancelled b0 :: l2 := by
      rw [h1]
    have hp0c : ((setCancelled b0).id == i) = true := hp0
    have h2 := cancelByIdHandler_found (cancelByIdHandler st i).1 i l1 (setCancelled b0) l2
      hsplit2 hpre2 hp0c
    refine ⟨l1, b0, l2, hsplit, by simpa using hp0, ?_, by rw [h1], by rw [h1], ?_, by rw [h2]⟩
    · intro y hy
      simpa using hpre2 y hy
    · rw [h2, h1]
      rfl
  · exact cancelByIdHandler_missing st i

/-- Witness for C5 at a concrete store holding booking 2: the cancel succeeds
with a 200. -/
theorem C5_cancel_by_id_witness :
    (cancelByIdHandler ⟨[], [⟨2, none, "Jazz Night", "a@b.com", 1,
      BStatus.confirmed, 0⟩], 3, 1⟩ 2).2.status = 200 := by
  obtain ⟨l1, b0, l2, -, -, -, -, h200, -, -⟩ :=
    (C5_cancel_by_id ⟨[], [⟨2, none, "Jazz Night", "a@b.com", 1,
        BStatus.confirmed, 0⟩], 3, 1⟩ 2).1
      ⟨⟨2, none, "Jazz Night", "a@b.com", 1, BStatus.confirmed, 0⟩, by simp, rfl⟩
  exact h200

/-! ### C6: cancellation by user email and event title -/

lemma cancelCore_user_title_missing (st : Store) (e t : String)
    (he : e ≠ "") (ht : t ≠ "")
    (hall : ∀ b ∈ st.bookings,
      (b.userEmail == e && b.eventTitle == t && !(b.status == BStatus.cancelled)) = false) :
    cancelCore st none e t = (st, ⟨404, errJson "Booking not found"⟩) := by
  have hfind : st.bookings.find?
      (fun b => b.userEmail == e && b.eventTitle == t && !(b.status == BStatus.cancelled)) =
        none := by
    rw [List.find?_eq_none]
    intro x hx
    simp [hall x hx]
  have h1 : (findOneAndUpdate
      (fun b => b.userEmail == e && b.eventTitle == t && !(b.status == BStatus.cancelled))
      setCancelled st.bookings).1 = none := by
    rw [findOneAndUpdate_fst, hfind]
    rfl
  simp only [cancelCore, cancelFilter, if_pos (And.intro he ht), h1]

lemma cancelCore_user_title_found (st : Store) (e t : String)
    (he : e ≠ "") (ht : t ≠ "") (l1 : List Booking) (b0 : Booking) (l2 : List Booking)
    (hsplit : st.bookings = l1 ++ b0 :: l2)
    (hpre : ∀ y ∈ l1,
      (y.userEmail == e && y.eventTitle == t && !(y.status == BStatus.cancelled)) = false)
    (hp0 : (b0.userEmail == e && b0.eventTitle == t &&
      !(b0.status == BStatus.cancelled)) = true) :
    cancelCore st none e t =
      ({ st with bookings := l1 ++ setCancelled b0 :: l2 },
       ⟨200, Json.obj [("ok", Json.bool true),
         ("booking", bookingToJson (setCancelled b0))]⟩) := by
  have hrun := findOneAndUpdate_append_split
    (fun b => b.userEmail == e && b.eventTitle == t && !(b.status == BStatus.cancelled))
    setCancelled l1 b0 l2 hpre hp0
  simp only [cancelCore, cancelFilter, if_pos (And.intro he ht), hsplit, hrun]

/-- C6: cancelling by (userEmail, eventTitle) matches only bookings carrying
both fields with a non-cancelled status; the first such booking alone is set to
cancelled (through DELETE /api/booking and POST /api/cancel alike), and when no
non-cancelled match remains — e.g. on a repeated call after a single original
match — the operation fails with 404 and changes nothing. -/
theorem C6_cancel_by_user_title (st : Store) (qe qt : Option String)
    (he : normEmail qe ≠ "") (ht : sanitizeTitle qt ≠ "") :
    ((∀ b ∈ st.bookings, ¬(b.userEmail = normEmail qe ∧ b.eventTitle = sanitizeTitle qt ∧
        b.status ≠ BStatus.cancelled)) →
      cancelByQueryHandler st none qe qt = (st, ⟨404, errJson "Booking not found"⟩) ∧
      cancelPostHandler st ⟨none, none, none, qe, qt⟩ =
        (st, ⟨404, errJson "Booking not found"⟩)) ∧
    ((∃ b ∈ st.bookings, b.userEmail = normEmail qe ∧ b.eventTitle = sanitizeTitle qt ∧
        b.status ≠ BStatus.cancelled) →
      ∃ l1 b0 l2, st.bookings = l1 ++ b0 :: l2 ∧
        (b0.userEmail = normEmail qe ∧ b0.eventTitle = sanitizeTitle qt ∧
          b0.status ≠ BStatus.cancelled) ∧
        (∀ y ∈ l1, ¬(y.userEmail = normEmail qe ∧ y.eventTitle = sanitizeTitle qt ∧
          y.status ≠ BStatus.cancelled)) ∧
        (cancelByQueryHandler st none qe qt).1 =
          { st with bookings := l1 ++ setCancelled b0 :: l2 } ∧
        (cancelByQueryHandler st none qe qt).2.status = 200 ∧
        (cancelPostHandler st ⟨none, none, none, qe, qt⟩).1 =
          { st with bookings := l1 ++ setCancelled b0 :: l2 } ∧
        (cancelPostHandler st ⟨none, none, none, qe, qt⟩).2.status = 200) := by
  have hpq : ∀ b : Booking,
      (b.userEmail == normEmail qe && b.eventTitle == sanitizeTitle qt &&
        !(b.status == BStatus.cancelled)) = true ↔
      (b.userEmail = normEmail qe ∧ b.eventTitle = sanitizeTitle qt ∧
        b.status ≠ BStatus.cancelled) := by
    intro b
    simp [Bool.and_eq_true, and_assoc]
  have hq : cancelByQueryHandler st none qe qt =
      cancelCore st none (normEmail qe) (sanitizeTitle qt) := rfl
  have hp : cancelPostHandler st ⟨none, none, none, qe, qt⟩ =
      cancelCore st none (normEmail qe) (sanitizeTitle qt) := rfl
  constructor
  · intro hall
    have hallb : ∀ b ∈ st.bookings,
        (b.userEmail == normEmail qe && b.eventTitle == sanitizeTitle qt &&
          !(b.status == BStatus.cancelled)) = false := by
      intro b hb
      rw [← Bool.not_eq_true, hpq b]
      exact hall b hb
    have h := cancelCore_user_title_missing st (normEmail qe) (sanitizeTitle qt) he ht hallb
    exact ⟨hq.trans h, hp.trans h⟩
  · rintro ⟨b, hb, hbprop⟩
    have hsome : (st.bookings.find?
        (fun b => b.userEmail == normEmail qe && b.eventTitle == sanitizeTitle qt &&
          !(b.status == BStatus.cancelled))).isSome := by
      rw [List.find?_isSome]
      exact ⟨b, hb, (hpq b).mpr hbprop⟩
    obtain ⟨b0, hfind⟩ := Option.isSome_iff_exists.mp hsome
    obtain ⟨hp0, l1, l2, hsplit, hpre⟩ := List.find?_eq_some.mp hfind
    have hpre2 : ∀ y ∈ l1,
        (y.userEmail == normEmail qe && y.eventTitle == sanitizeTitle qt &&
          !(y.status == BStatus.cancelled)) = false := by
      intro y hy
      have := hpre y hy
      rwa [Bool.not_eq_true'] at this
    have h := cancelCore_user_title_found st (normEmail qe) (sanitizeTitle qt) he ht
      l1 b0 l2 hsplit hpre2 hp0
    refine ⟨l1, b0, l2, hsplit, (hpq b0).mp hp0, ?_, ?_, ?_, ?_, ?_⟩
    · intro y hy
      rw [← hpq y]
      simp [hpre2 y hy]
    · rw [hq, h]
    · rw [hq, h]
    · rw [hp, h]
    · rw [hp, h]

/-- Witness for C6: on a store whose only matching booking is already
cancelled, the user+title cancel returns 404. -/
theorem C6_cancel_by_user_title_witness :
    cancelByQueryHandler ⟨[], [⟨2, none, "Jazz Night", "a@b.com", 1,
        BStatus.cancelled, 0⟩], 3, 1⟩ none (some "a@b.com") (some "Jazz Night") =
      (⟨[], [⟨2, none, "Jazz Night", "a@b.com", 1, BStatus.cancelled, 0⟩], 3, 1⟩,
       ⟨404, errJson "Booking not found"⟩) := by
  have h := (C6_cancel_by_user_title ⟨[], [⟨2, none, "Jazz Night", "a@b.com", 1,
      BStatus.cancelled, 0⟩], 3, 1⟩ (some "a@b.com") (some "Jazz Night")
      (by decide) (by decide)).1 (by decide)
  exact h.1

/-! ### C4: deleteEvent on a missing or already-deleted event -/

/-- C4: `DELETE /api/events/:id` returns 404 and leaves every record unchanged
whenever no event carries the id or the carried event is already deleted, for
every mode — in particular a hard delete of an already soft-deleted event
removes nothing. -/
theorem C4_delete_event_not_found (st : Store) (i : Nat) (mode : Option String)
    (hN : (st.events.map Event.id).Nodup)
    (h : (∀ e ∈ st.events, e.id ≠ i) ∨
      (∃ e ∈ st.events, e.id = i ∧ e.status = EStatus.deleted)) :
    deleteEventHandler st i mode = (st, ⟨404, errJson "Event not found"⟩) := by
  rcases h with hall | ⟨e, he, hei, hdel⟩
  · have hfind : st.events.find? (fun e => e.id == i) = none := by
      rw [List.find?_eq_none]
      intro x hx
      simp [hall x hx]
    simp only [deleteEventHandler, hfind]
  · have hfind := find?_key_unique Event.id i st.events e hN he hei
    have hb : (e.status == EStatus.deleted) = true := by simp [hdel]
    simp only [deleteEventHandler, hfind, hb, if_pos]

/-- Witness for C4: hard-deleting an already soft-deleted event is a 404 that
removes nothing. -/
theorem C4_delete_event_not_found_witness :
    deleteEventHandler ⟨[⟨1, "Jazz Night", "Pune", "2025-01-01", JSNum.fin 10, "Hall",
        "", "", EStatus.deleted⟩], [], 2, 1⟩ 1 (some "hard") =
      (⟨[⟨1, "Jazz Night", "Pune", "2025-01-01", JSNum.fin 10, "Hall",
        "", "", EStatus.deleted⟩], [], 2, 1⟩, ⟨404, errJson "Event not found"⟩) := by
  exact C4_delete_event_not_found _ 1 (some "hard") (by decide)
    (Or.inr ⟨⟨1, "Jazz Night", "Pune", "2025-01-01", JSNum.fin 10, "Hall",
      "", "", EStatus.deleted⟩, by simp, rfl, rfl⟩)

/-! ### C2 and C3: the soft and hard delete cascades -/

/-- C2: soft-deleting an existing active event flips exactly that event's
status to deleted and sets cancelled on exactly the not-yet-cancelled bookings
matching it by eventId or by title; every other booking and every other event
is unchanged. -/
theorem C2_soft_delete_cascade (st : Store) (i : Nat) (ev : Event)
    (hN : (st.events.map Event.id).Nodup)
    (hmem : ev ∈ st.events) (hid : ev.id = i) (hactive : ev.status = EStatus.active) :
    deleteEventHandler st i (some "soft") =
      ({ st with
          events := st.events.map (fun e =>
            if e.id = i then { e with status := EStatus.deleted } else e)
          bookings := st.bookings.map (fun b =>
            if (b.eventId = some i ∨ b.eventTitle = ev.title) ∧ b.status ≠ BStatus.cancelled
            then { b with status := BStatus.cancelled } else b) },
       ⟨200, Json.obj [("ok", Json.bool true), ("deleted", Json.str "soft"),
         ("eventId", idJson i)]⟩) := by
  have hfind := find?_key_unique Event.id i st.events ev hN hmem hid
  have hn : ¬ ((ev.status == EStatus.deleted) = true) := by simp [hactive]
  have hsoftm : ¬ (jsLowerStr (if (some "soft").getD "" = "" then "soft"
      else (some "soft").getD "") = "hard") := by decide
  simp only [deleteEventHandler, hfind, if_neg hn, if_neg hsoftm]
  rw [Prod.mk.injEq]
  refine ⟨?_, rfl⟩
  rw [Store.mk.injEq]
  refine ⟨?_, ?_, rfl, rfl⟩
  · exact updateFirst_eq_map_of_unique Event.id i
      (fun e => { e with status := EStatus.deleted }) st.events hN
  · simp only [updateMany]
    refine List.map_congr_left ?_
    intro b hb
    refine if_congr ?_ rfl rfl
    simp [Bool.and_eq_true, Bool.or_eq_true, and_assoc]

/-- Witness for C2 on a concrete store: the matching confirmed booking is
cancelled, the title-matching booking without eventId as well, and the
unrelated booking is untouched. -/
theorem C2_soft_delete_cascade_witness :
    deleteEventHandler ⟨[⟨1, "Jazz Night", "Pune", "2025-01-01", JSNum.fin 10, "Hall",
        "", "", EStatus.active⟩],
      [⟨2, some 1, "Jazz Night", "a@b.com", 1, BStatus.confirmed, 0⟩,
       ⟨3, none, "Jazz Night", "c@d.com", 2, BStatus.confirmed, 1⟩,
       ⟨4, none, "Other Show", "e@f.com", 3, BStatus.confirmed, 2⟩], 5, 3⟩ 1 (some "soft") =
      (⟨[⟨1, "Jazz Night", "Pune", "2025-01-01", JSNum.fin 10, "Hall",
        "", "", EStatus.deleted⟩],
      [⟨2, some 1, "Jazz Night", "a@b.com", 1, BStatus.cancelled, 0⟩,
       ⟨3, none, "Jazz Night", "c@d.com", 2, BStatus.cancelled, 1⟩,
       ⟨4, none, "Other Show", "e@f.com", 3, BStatus.confirmed, 2⟩], 5, 3⟩,
       ⟨200, Json.obj [("ok", Json.bool true), ("deleted", Json.str "soft"),
         ("eventId", idJson 1)]⟩) := by
  rw [C2_soft_delete_cascade _ 1 ⟨1, "Jazz Night", "Pune", "2025-01-01", JSNum.fin 10,
      "Hall", "", "", EStatus.active⟩ (by decide) (by simp) rfl rfl]
  rfl

/-- C3: hard-deleting an existing active event removes the event record and
every booking matching it by eventId or by title, cancelled or not; every
other record is unchanged. -/
theorem C3_hard_delete_removal (st : Store) (i : Nat) (ev : Event)
    (hN : (st.events.map Event.id).Nodup)
    (hmem : ev ∈ st.events) (hid : ev.id = i) (hactive : ev.status = EStatus.active) :
    deleteEventHandler st i (some "hard") =
      ({ st with
          events := st.events.filter (fun e => !(e.id == i))
          bookings := st.bookings.filter (fun b =>
            !(b.eventId == some i || b.eventTitle == ev.title)) },
       ⟨200, Json.obj [("ok", Json.bool true), ("deleted", Json.str "hard"),
         ("eventId", idJson i)]⟩) := by
  have hfind := find?_key_unique Event.id i st.events ev hN hmem hid
  have hn : ¬ ((ev.status == EStatus.deleted) = true) := by simp [hactive]
  have hhardm : jsLowerStr (if (some "hard").getD "" = "" then "soft"
      else (some "hard").getD "") = "hard" := by decide
  simp only [deleteEventHandler, hfind, if_neg hn, if_pos hhardm]
  rw [Prod.mk.injEq]
  refine ⟨?_, rfl⟩
  rw [Store.mk.injEq]
  refine ⟨?_, rfl, rfl, rfl⟩
  exact deleteOne_eq_filter_of_unique Event.id i st.events hN

/-- Witness for C3 on a concrete store: the event disappears and so do both
matching bookings (one of them already cancelled), while the unrelated booking
stays. -/
theorem C3_hard_delete_removal_witness :
    deleteEventHandler ⟨[⟨1, "Jazz Night", "Pune", "2025-01-01", JSNum.fin 10, "Hall",
        "", "", EStatus.active⟩],
      [⟨2, some 1, "Jazz Night", "a@b.com", 1, BStatus.cancelled, 0⟩,
       ⟨3, none, "Jazz Night", "c@d.com", 2, BStatus.confirmed, 1⟩,
       ⟨4, none, "Other Show", "e@f.com", 3, BStatus.confirmed, 2⟩], 5, 3⟩ 1 (some "hard") =
      (⟨[], [⟨4, none, "Other Show", "e@f.com", 3, BStatus.confirmed, 2⟩], 5, 3⟩,
       ⟨200, Json.obj [("ok", Json.bool true), ("deleted", Json.str "hard"),
         ("eventId", idJson 1)]⟩) := by
  rw [C3_hard_delete_removal _ 1 ⟨1, "Jazz Night", "Pune", "2025-01-01", JSNum.fin 10,
      "Hall", "", "", EStatus.active⟩ (by decide) (by simp) rfl rfl]
  rfl

/-! ### C9: listing bookings by user -/

/-- C9: listing bookings by user returns 400 when the normalized email is
empty, and otherwise a 200 carrying exactly the user's bookings, newest first
by creation time, each shaped by `shapeBooking` (a `date` alias equal to the
creation timestamp beside `createdAt`, all other fields preserved); zero
matches give an empty sequence, not an error. -/
theorem C9_list_bookings (st : Store) (q : Option String) :
    (normEmail q = "" →
      bookingsListHandler st q =
        (st, ⟨400, errJson "userEmail query param is required"⟩)) ∧
    (normEmail q ≠ "" →
      ∃ l : List Booking,
        l.Perm (st.bookings.filter (fun b => b.userEmail == normEmail q)) ∧
        List.Pairwise (fun a b => b.createdAt ≤ a.createdAt) l ∧
        bookingsListHandler st q =
          (st, ⟨200, Json.arr (l.map (fun b => shapedToJson (shapeBooking b)))⟩)) := by
  constructor
  · intro he
    simp only [bookingsListHandler, if_pos he]
  · intro he
    refine ⟨List.insertionSort (fun a b : Booking => b.createdAt ≤ a.createdAt)
      (st.bookings.filter (fun b => b.userEmail == normEmail q)), ?_, ?_, ?_⟩
    · exact List.perm_insertionSort _ _
    · exact List.sorted_insertionSort _ _
    · simp only [bookingsListHandler, if_neg he]

/-- Witness for C9 on a concrete store: the listing succeeds with a 200. -/
theorem C9_list_bookings_witness :
    (bookingsListHandler ⟨[], [⟨2, none, "Jazz Night", "a@b.com", 1,
      BStatus.confirmed, 0⟩], 3, 1⟩ (some "a@b.com")).2.status = 200 := by
  obtain ⟨l, -, -, hrun⟩ := (C9_list_bookings ⟨[], [⟨2, none, "Jazz Night", "a@b.com", 1,
    BStatus.confirmed, 0⟩], 3, 1⟩ (some "a@b.com")).2 (by decide)
  rw [hrun]

/-! ### C10: response envelopes -/

lemma C10aux_err {st : Store} {r : Req} {st2 : Store} {code : Nat} {msg : String}
    (hrun : handle st r = (st2, ⟨code, errJson msg⟩)) (hc : 400 ≤ code) :
    (400 ≤ (handle st r).2.status → isErrObj (handle st r).2.body = true) ∧
    ((handle st r).2.status < 400 →
      isOkTrueObj (handle st r).2.body = true ∨
      ((r = Req.listEvents ∨ ∃ q, r = Req.listBookings q) ∧
        ∃ items, (handle st r).2.body = Json.arr items)) := by
  rw [hrun]
  constructor
  · intro _
    rfl
  · intro h
    have hs : ((st2, (⟨code, errJson msg⟩ : HttpResp)).2).status = code := rfl
    rw [hs] at h
    omega

lemma C10aux_ok {st : Store} {r : Req} {st2 : Store} {code : Nat}
    {rest : List (String × Json)}
    (hrun : handle st r = (st2, ⟨code, Json.obj (("ok", Json.bool true) :: rest)⟩))
    (hc : code < 400) :
    (400 ≤ (handle st r).2.status → isErrObj (handle st r).2.body = true) ∧
    ((handle st r).2.status < 400 →
      isOkTrueObj (handle st r).2.body = true ∨
      ((r = Req.listEvents ∨ ∃ q, r = Req.listBookings q) ∧
        ∃ items, (handle st r).2.body = Json.arr items)) := by
  rw [hrun]
  constructor
  · intro h
    have hs : ((st2, (⟨code, Json.obj (("ok", Json.bool true) :: rest)⟩ : HttpResp)).2).status
        = code := rfl
    rw [hs] at h
    omega
  · intro _
    exact Or.inl rfl

lemma C10aux_arr {st : Store} {r : Req} {st2 : Store} {code : Nat} {items : List Json}
    (hrun : handle st r = (st2, ⟨code, Json.arr items⟩)) (hc : code < 400)
    (hr : r = Req.listEvents ∨ ∃ q, r = Req.listBookings q) :
    (400 ≤ (handle st r).2.status → isErrObj (handle st r).2.body = true) ∧
    ((handle st r).2.status < 400 →
      isOkTrueObj (handle st r).2.body = true ∨
      ((r = Req.listEvents ∨ ∃ q, r = Req.listBookings q) ∧
        ∃ items, (handle st r).2.body = Json.arr items)) := by
  rw [hrun]
  constructor
  · intro h
    have hs : ((st2, (⟨code, Json.arr items⟩ : HttpResp)).2).status = code := rfl
    rw [hs] at h
    omega
  · intro _
    exact Or.inr ⟨hr, items, rfl⟩

/-- Counterexample to C10 as stated: the success response of GET /api/events is
a bare JSON array, not an `{ ok: true, ... }` object. -/
theorem C10_envelope_counterexample :
    (handle initStore Req.listEvents).2.status = 200 ∧
    isOkTrueObj (handle initStore Req.listEvents).2.body = false ∧
    (handle initStore Req.listEvents).2.body = Json.arr [] :=
  ⟨rfl, rfl, rfl⟩

/-- C10 (amended): every failure response is the `{ ok: false, error }`
envelope, and every success response is an `{ ok: true, ... }` object except
those of the event-listing and booking-listing endpoints, which are bare JSON
arrays of the listed records. -/
theorem C10_response_envelopes (st : Store) (r : Req) :
    (400 ≤ (handle st r).2.status → isErrObj (handle st r).2.body = true) ∧
    ((handle st r).2.status < 400 →
      isOkTrueObj (handle st r).2.body = true ∨
      ((r = Req.listEvents ∨ ∃ q, r = Req.listBookings q) ∧
        ∃ items, (handle st r).2.body = Json.arr items)) := by
  cases r with
  | root => exact C10aux_ok rfl (by omega)
  | health => exact C10aux_ok rfl (by omega)
  | listEvents => exact C10aux_arr rfl (by omega) (Or.inl rfl)
  | createEvent b =>
    by_cases hc : b.title.getD "" = "" ∨ b.city.getD "" = "" ∨ b.date.getD "" = "" ∨
        b.price = none ∨ b.venue.getD "" = ""
    · exact C10aux_err (by simp only [handle, eventsCreateHandler, if_pos hc]; rfl) (by omega)
    · rcases hcr : eventCreate st (b.title.getD "") (b.city.getD "") (b.date.getD "")
          (b.venue.getD "") (b.image.getD "") (b.description.getD "")
          (b.price.getD JSNum.nan) with _ | ⟨st2, ev⟩
      · exact C10aux_err
          (by simp only [handle, eventsCreateHandler, if_neg hc, hcr]; rfl) (by omega)
      · exact C10aux_ok
          (by simp only [handle, eventsCreateHandler, if_neg hc, hcr]; rfl) (by omega)
  | deleteEvent i mode =>
    rcases hf : st.events.find? (fun e => e.id == i) with _ | ev
    · exact C10aux_err (by simp only [handle, deleteEventHandler, hf]; rfl) (by omega)
    · by_cases hd : (ev.status == EStatus.deleted) = true
      · exact C10aux_err
          (by simp only [handle, deleteEventHandler, hf, if_pos hd]; rfl) (by omega)
      · by_cases hm : jsLowerStr (if mode.getD "" = "" then "soft" else mode.getD "") = "hard"
        · exact C10aux_ok
            (by simp only [handle, deleteEventHandler, hf, if_neg hd, if_pos hm]; rfl) (by omega)
        · exact C10aux_ok
            (by simp only [handle, deleteEventHandler, hf, if_neg hd, if_neg hm]; rfl) (by omega)
  | book b =>
    by_cases h1 : sanitizeTitle b.eventTitle = "" ∨ normEmail b.userEmail = ""
    · exact C10aux_err (by simp only [handle, bookHandler, if_pos h1]; rfl) (by omega)
    · by_cases h2 : emailTest (normEmail b.userEmail) = false
      · exact C10aux_err
          (by simp only [handle, bookHandler, if_neg h1, if_pos h2]; rfl) (by omega)
      · rcases hcr : bookingCreate st (sanitizeTitle b.eventTitle) (normEmail b.userEmail)
            (pickQuantity b) b.eventId with _ | ⟨st2, bk⟩
        · exact C10aux_err
            (by simp only [handle, bookHandler, if_neg h1, if_neg h2, hcr]; rfl) (by omega)
        · exact C10aux_ok
            (by simp only [handle, bookHandler, if_neg h1, if_neg h2, hcr]; rfl) (by omega)
  | listBookings q =>
    by_cases he : normEmail q = ""
    · exact C10aux_err (by simp only [handle, bookingsListHandler, if_pos he]; rfl) (by omega)
    · exact C10aux_arr (by simp only [handle, bookingsListHandler, if_neg he]; rfl) (by omega)
        (Or.inr ⟨q, rfl⟩)
  | cancelById i =>
    rcases hfu : (findOneAndUpdate (fun b => b.id == i) setCancelled st.bookings).1
        with _ | doc
    · exact C10aux_err (by simp only [handle, cancelByIdHandler, hfu]; rfl) (by omega)
    · exact C10aux_ok (by simp only [handle, cancelByIdHandler, hfu]; rfl) (by omega)
  | cancelByQuery bid ue et =>
    rcases hcf : cancelFilter bid (normEmail ue) (sanitizeTitle et) with _ | p
    · exact C10aux_err
        (by simp only [handle, cancelByQueryHandler, cancelCore, hcf]; rfl) (by omega)
    · rcases hfu : (findOneAndUpdate p setCancelled st.bookings).1 with _ | doc
      · exact C10aux_err
          (by simp only [handle, cancelByQueryHandler, cancelCore, hcf, hfu]; rfl) (by omega)
      · exact C10aux_ok
          (by simp only [handle, cancelByQueryHandler, cancelCore, hcf, hfu]; rfl) (by omega)
  | cancelPost b =>
    rcases hcf : cancelFilter ((b.bookingId.or b.mongoId).or b.plainId)
        (normEmail b.userEmail) (sanitizeTitle b.eventTitle) with _ | p
    · exact C10aux_err
        (by simp only [handle, cancelPostHandler, cancelCore, hcf]; rfl) (by omega)
    · rcases hfu : (findOneAndUpdate p setCancelled st.bookings).1 with _ | doc
      · exact C10aux_err
          (by simp only [handle, cancelPostHandler, cancelCore, hcf, hfu]; rfl) (by omega)
      · exact C10aux_ok
          (by simp only [handle, cancelPostHandler, cancelCore, hcf, hfu]; rfl) (by omega)
  | unmatched => exact C10aux_err rfl (by omega)

/-- Witness for C10 (amended) at a concrete request: the 404 fallback carries
the failure envelope. -/
theorem C10_response_envelopes_witness :
    isErrObj (handle initStore Req.unmatched).2.body = true :=
  (C10_response_envelopes initStore Req.unmatched).1 (by decide)

/-! ### C8: booking validation and the schema length bound -/

lemma char_toNat_ofNat_valid {n : Nat} (h : n < 55296) : (Char.ofNat n).toNat = n := by
  have hv : n.isValidChar := Or.inl h
  unfold Char.ofNat
  rw [dif_pos hv]
  rfl

lemma jsLowerChar_idem (c : Char) : jsLowerChar (jsLowerChar c) = jsLowerChar c := by
  unfold jsLowerChar
  by_cases h : 65 ≤ c.toNat ∧ c.toNat ≤ 90
  · have ht : (Char.ofNat (c.toNat + 32)).toNat = c.toNat + 32 :=
      char_toNat_ofNat_valid (by omega)
    rw [if_pos h, if_neg (by rw [ht]; omega)]
  · rw [if_neg h, if_neg h]

lemma head?_dropWhile_not {α : Type} {p : α → Bool} :
    ∀ {l : List α} {c : α}, (l.dropWhile p).head? = some c → p c = false := by
  intro l
  induction l with
  | nil => intro c h; cases h
  | cons x xs ih =>
    intro c h
    by_cases hx : p x
    · rw [List.dropWhile_cons, if_pos hx] at h
      exact ih h
    · rw [List.dropWhile_cons, if_neg hx] at h
      cases h
      simpa using hx

lemma dropWhile_eq_self_of_head {α : Type} {p : α → Bool} {l : List α}
    (h : ∀ c, l.head? = some c → p c = false) : l.dropWhile p = l := by
  cases l with
  | nil => rfl
  | cons x xs =>
    rw [List.dropWhile_cons, if_neg]
    rw [h x rfl]
    simp

lemma trimChars_decomp (l : List Char) :
    l.dropWhile isJsWs =
      trimChars l ++ ((l.dropWhile isJsWs).reverse.takeWhile isJsWs).reverse := by
  unfold trimChars
  conv_lhs => rw [← List.reverse_reverse (l.dropWhile isJsWs),
    ← List.takeWhile_append_dropWhile (p := isJsWs) (l := (l.dropWhile isJsWs).reverse)]
  rw [List.reverse_append]

lemma trimChars_head {l : List Char} {c : Char} (h : (trimChars l).head? = some c) :
    isJsWs c = false := by
  apply head?_dropWhile_not (l := l)
  rw [trimChars_decomp l, List.head?_append, h]
  rfl

lemma trimChars_getLast {l : List Char} {c : Char} (h : (trimChars l).getLast? = some c) :
    isJsWs c = false := by
  unfold trimChars at h
  rw [List.getLast?_reverse] at h
  exact head?_dropWhile_not h

lemma trimChars_idem (l : List Char) : trimChars (trimChars l) = trimChars l := by
  have h1 : (trimChars l).dropWhile isJsWs = trimChars l :=
    dropWhile_eq_self_of_head (fun c hc => trimChars_head hc)
  show (((trimChars l).dropWhile isJsWs).reverse.dropWhile isJsWs).reverse = trimChars l
  rw [h1]
  have h2 : (trimChars l).reverse.dropWhile isJsWs = (trimChars l).reverse :=
    dropWhile_eq_self_of_head (fun c hc => by
      rw [List.head?_reverse] at hc
      exact trimChars_getLast hc)
  rw [h2, List.reverse_reverse]

lemma mem_trimChars {l : List Char} {c : Char} (h : c ∈ trimChars l) : c ∈ l := by
  unfold trimChars at h
  rw [List.mem_reverse] at h
  have h2 := List.Sublist.mem h (List.dropWhile_sublist isJsWs)
  rw [List.mem_reverse] at h2
  exact List.Sublist.mem h2 (List.dropWhile_sublist isJsWs)

lemma trimChars_ne_nil_of_head {l : List Char} {c : Char} (hc : l.head? = some c)
    (hw : isJsWs c = false) : trimChars l ≠ [] := by
  intro h
  unfold trimChars at h
  rw [List.reverse_eq_nil_iff, List.dropWhile_eq_nil_iff] at h
  have hd : l.dropWhile isJsWs = l := dropWhile_eq_self_of_head (fun d hd => by
    rw [hc] at hd
    cases hd
    exact hw)
  obtain ⟨ys, rfl⟩ := List.head?_eq_some_iff.mp hc
  have := h c (by rw [hd, List.mem_reverse]; exact List.mem_cons_self c ys)
  rw [hw] at this
  cases this

lemma trimChars_length_le (l : List Char) : (trimChars l).length ≤ l.length := by
  unfold trimChars
  rw [List.length_reverse]
  calc (List.dropWhile isJsWs (l.dropWhile isJsWs).reverse).length
      ≤ (l.dropWhile isJsWs).reverse.length := (List.dropWhile_sublist _).length_le
    _ = (l.dropWhile isJsWs).length := List.length_reverse _
    _ ≤ l.length := (List.dropWhile_sublist _).length_le

lemma map_jsLowerChar_trimChars_map (l : List Char) :
    (trimChars (l.map jsLowerChar)).map jsLowerChar = trimChars (l.map jsLowerChar) := by
  have hfix : ∀ c ∈ trimChars (l.map jsLowerChar), jsLowerChar c = c := by
    intro c hc
    obtain ⟨x, hx, rfl⟩ := List.mem_map.mp (mem_trimChars hc)
    exact jsLowerChar_idem x
  rw [List.map_congr_left hfix, List.map_id']

lemma jsLowerStr_normEmail (s : Option String) : jsLowerStr (normEmail s) = normEmail s :=
  congrArg String.mk (map_jsLowerChar_trimChars_map (s.getD "").data)

lemma jsTrimStr_normEmail (s : Option String) : jsTrimStr (normEmail s) = normEmail s :=
  congrArg String.mk (trimChars_idem _)

lemma sanitizeTitle_trim_facts (s : Option String) (h : sanitizeTitle s ≠ "") :
    jsTrimStr (sanitizeTitle s) ≠ "" ∧ (jsTrimStr (sanitizeTitle s)).data.length ≤ 200 := by
  have hTne : (trimChars (s.getD "").data).take 200 ≠ [] := by
    intro hnil
    apply h
    show (⟨(trimChars (s.getD "").data).take 200⟩ : String) = ""
    rw [hnil]
  have hLne : trimChars (s.getD "").data ≠ [] := by
    intro h0
    apply hTne
    rw [h0]
    simp
  obtain ⟨c, hc⟩ : ∃ c, (trimChars (s.getD "").data).head? = some c := by
    cases hL2 : trimChars (s.getD "").data with
    | nil => exact absurd hL2 hLne
    | cons x xs => exact ⟨x, rfl⟩
  have hcw : isJsWs c = false := trimChars_head hc
  have hThead : ((trimChars (s.getD "").data).take 200).head? = some c := by
    rw [List.head?_take, if_neg (by omega)]
    exact hc
  constructor
  · intro h0
    have hdata : trimChars ((trimChars (s.getD "").data).take 200) = [] := by
      have := congrArg String.data h0
      simpa using this
    exact trimChars_ne_nil_of_head hThead hcw hdata
  · show (trimChars ((trimChars (s.getD "").data).take 200)).length ≤ 200
    refine le_trans (trimChars_length_le _) ?_
    rw [List.length_take]
    exact min_le_left _ _

/-- C8 (amended): booking creation returns 400 exactly when the normalized
eventTitle or userEmail is empty or the normalized userEmail fails the regex
`[^\s@]+@[^\s@]+[.][^\s@]+` anchored at both ends, each rejection happening
before any store operation so nothing is created or modified; otherwise —
provided the normalized userEmail also fits the schema's 200-character
bound — a new Booking with status confirmed is persisted.  (The proviso is the
amendment: a longer regex-valid email passes the handler's validation but is
rejected by the schema's maxlength, yielding a 500 with no record.) -/
theorem C8_booking_validation (st : Store) (b : BookBody) :
    (sanitizeTitle b.eventTitle = "" ∨ normEmail b.userEmail = "" →
      bookHandler st b = (st, ⟨400, errJson "eventTitle and userEmail are required"⟩)) ∧
    (sanitizeTitle b.eventTitle ≠ "" → normEmail b.userEmail ≠ "" →
      emailTest (normEmail b.userEmail) = false →
      bookHandler st b = (st, ⟨400, errJson "Invalid email"⟩)) ∧
    (sanitizeTitle b.eventTitle ≠ "" → normEmail b.userEmail ≠ "" →
      emailTest (normEmail b.userEmail) = true →
      (normEmail b.userEmail).data.length ≤ 200 →
      ∃ bk : Booking, bk.status = BStatus.confirmed ∧
        bookHandler st b = (pushBooking st bk,
          ⟨201, Json.obj [("ok", Json.bool true), ("booking", bookingToJson bk)]⟩)) := by
  refine ⟨?_, ?_, ?_⟩
  · intro h
    simp only [bookHandler, if_pos h]
  · intro ht he hreg
    simp only [bookHandler, if_neg (not_or.mpr ⟨ht, he⟩), if_pos hreg]
  · intro ht he hreg hlen
    have hfix : jsTrimStr (jsLowerStr (normEmail b.userEmail)) = normEmail b.userEmail := by
      rw [jsLowerStr_normEmail, jsTrimStr_normEmail]
    obtain ⟨ht2, hlen2⟩ := sanitizeTitle_trim_facts b.eventTitle ht
    have hcond : (jsTrimStr (sanitizeTitle b.eventTitle) ≠ "" ∧
        (jsTrimStr (sanitizeTitle b.eventTitle)).data.length ≤ 200 ∧
        jsTrimStr (jsLowerStr (normEmail b.userEmail)) ≠ "" ∧
        (jsTrimStr (jsLowerStr (normEmail b.userEmail))).data.length ≤ 200 ∧
        emailTest (jsTrimStr (jsLowerStr (normEmail b.userEmail))) = true) ∧
        (1 ≤ pickQuantity b ∧ pickQuantity b ≤ 10) := by
      rw [hfix]
      exact ⟨⟨ht2, hlen2, he, hlen, hreg⟩,
        clampQty_ge_one (firstQtyAlias b), clampQty_le_ten (firstQtyAlias b)⟩
    have hcr : bookingCreate st (sanitizeTitle b.eventTitle) (normEmail b.userEmail)
        (pickQuantity b) b.eventId =
        some (pushBooking st ⟨st.nextId, b.eventId, jsTrimStr (sanitizeTitle b.eventTitle),
            jsTrimStr (jsLowerStr (normEmail b.userEmail)), pickQuantity b,
            BStatus.confirmed, st.now⟩,
          ⟨st.nextId, b.eventId, jsTrimStr (sanitizeTitle b.eventTitle),
            jsTrimStr (jsLowerStr (normEmail b.userEmail)), pickQuantity b,
            BStatus.confirmed, st.now⟩) := by
      simp only [bookingCreate]
      rw [if_pos hcond]
    refine ⟨⟨st.nextId, b.eventId, jsTrimStr (sanitizeTitle b.eventTitle),
      jsTrimStr (jsLowerStr (normEmail b.userEmail)), pickQuantity b,
      BStatus.confirmed, st.now⟩, rfl, ?_⟩
    simp only [bookHandler, if_neg (not_or.mpr ⟨ht, he⟩),
      if_neg (show ¬ emailTest (normEmail b.userEmail) = false by rw [hreg]; decide), hcr]

set_option maxRecDepth 20000 in
/-- Counterexample to C8 as stated: a 201-character email matching the regex
passes the handler's validation — the claim as stated then promises a
persisted booking — yet the request yields a 500 with no record created or
modified, because the schema's 200-character bound rejects the insert. -/
theorem C8_booking_validation_counterexample :
    sanitizeTitle (some "Jazz Night") ≠ "" ∧
    normEmail (some (String.mk (List.replicate 195 'a') ++ "@bb.cc")) ≠ "" ∧
    emailTest (normEmail (some (String.mk (List.replicate 195 'a') ++ "@bb.cc"))) = true ∧
    (normEmail (some (String.mk (List.replicate 195 'a') ++ "@bb.cc"))).data.length = 201 ∧
    bookHandler initStore ⟨some "Jazz Night",
        some (String.mk (List.replicate 195 'a') ++ "@bb.cc"),
        none, none, none, none, none, none⟩ =
      (initStore, ⟨500, errJson "Server error"⟩) :=
  ⟨by decide, by decide, by decide, by decide, rfl⟩

/-- Witness for C8 at a concrete valid request: a 201 is returned. -/
theorem C8_booking_validation_witness :
    (bookHandler initStore ⟨some "Jazz Night", some "a@b.com", none, none, none,
      none, none, none⟩).2.status = 201 := by
  obtain ⟨bk, -, hrun⟩ := (C8_booking_validation initStore ⟨some "Jazz Night",
    some "a@b.com", none, none, none, none, none, none⟩).2.2 (by decide) (by decide)
    (by decide) (by decide)
  rw [hrun]

/-! ### C1: statuses never revert -/

lemma map_key_map_of_preserve {α β : Type} (key : α → β) (g : α → α) (l : List α)
    (h : ∀ x, key (g x) = key x) : (l.map g).map key = l.map key := by
  rw [List.map_map]
  exact List.map_congr_left (fun x _ => h x)

lemma map_key_updateFirst {α β : Type} (key : α → β) (p : α → Bool) (f : α → α)
    (l : List α) (h : ∀ x, key (f x) = key x) :
    (updateFirst p f l).map key = l.map key := by
  induction l with
  | nil => rfl
  | cons x xs ih =>
    rw [updateFirst_cons]
    by_cases hp : p x
    · rw [if_pos hp]
      simp [h x]
    · rw [if_neg hp]
      simp only [List.map_cons, ih]

lemma deleteOne_sublist {α : Type} (p : α → Bool) (l : List α) :
    (deleteOne p l).Sublist l := by
  induction l with
  | nil => exact List.Sublist.refl _
  | cons x xs ih =>
    by_cases hp : p x
    · rw [show deleteOne p (x :: xs) = xs by simp [deleteOne, hp]]
      exact List.sublist_cons_self x xs
    · rw [show deleteOne p (x :: xs) = x :: deleteOne p xs by simp [deleteOne, hp]]
      exact ih.cons₂ x

lemma stepOK_of_eq {st st2 : Store} (h : st2 = st) : StepOK st st2 := by
  subst h
  exact ⟨le_refl _, id, fun i _ hall => hall, fun i _ hall => hall⟩

lemma StepOK.trans {s1 s2 s3 : Store} (h1 : StepOK s1 s2) (h2 : StepOK s2 s3) :
    StepOK s1 s3 := by
  obtain ⟨m1, w1, b1, e1⟩ := h1
  obtain ⟨m2, w2, b2, e2⟩ := h2
  refine ⟨le_trans m1 m2, fun h => w2 (w1 h), ?_, ?_⟩
  · intro i hi hall
    exact b2 i (lt_of_lt_of_le hi m1) (b1 i hi hall)
  · intro i hi hall
    exact e2 i (lt_of_lt_of_le hi m1) (e1 i hi hall)

lemma stepOK_pushBooking (st : Store) (bk : Booking) (hid : bk.id = st.nextId) :
    StepOK st (pushBooking st bk) := by
  refine ⟨Nat.le_succ _, ?_, ?_, ?_⟩
  · rintro ⟨hev, hbk, hevN, hbkN⟩
    refine ⟨fun e he => Nat.lt_succ_of_lt (hev e he), ?_, hevN, ?_⟩
    · intro b hb
      rcases List.mem_append.mp hb with h | h
      · exact Nat.lt_succ_of_lt (hbk b h)
      · rw [List.mem_singleton.mp h, hid]
        exact Nat.lt_succ_self _
    · show ((st.bookings ++ [bk]).map Booking.id).Nodup
      rw [List.map_append]
      rw [List.nodup_append]
      refine ⟨hbkN, by simp, ?_⟩
      intro a ha hmem
      rcases List.mem_map.mp ha with ⟨b, hb, rfl⟩
      have h1 : b.id < st.nextId := hbk b hb
      have h2 : b.id = bk.id := by simpa using hmem
      rw [hid] at h2
      omega
  · intro i hi hall b2 hb2 hid2
    rcases List.mem_append.mp hb2 with h | h
    · exact hall b2 h hid2
    · rw [List.mem_singleton.mp h] at hid2
      rw [hid] at hid2
      omega
  · intro i hi hall e2 he2 hid2
    exact hall e2 he2 hid2

lemma stepOK_pushEvent (st : Store) (ev : Event) (hid : ev.id = st.nextId) :
    StepOK st (pushEvent st ev) := by
  refine ⟨Nat.le_succ _, ?_, ?_, ?_⟩
  · rintro ⟨hev, hbk, hevN, hbkN⟩
    refine ⟨?_, fun b hb => Nat.lt_succ_of_lt (hbk b hb), ?_, hbkN⟩
    · intro e he
      rcases List.mem_append.mp he with h | h
      · exact Nat.lt_succ_of_lt (hev e h)
      · rw [List.mem_singleton.mp h, hid]
        exact Nat.lt_succ_self _
    · show ((st.events ++ [ev]).map Event.id).Nodup
      rw [List.map_append]
      rw [List.nodup_append]
      refine ⟨hevN, by simp, ?_⟩
      intro a ha hmem
      rcases List.mem_map.mp ha with ⟨e, he, rfl⟩
      have h1 : e.id < st.nextId := hev e he
      have h2 : e.id = ev.id := by simpa using hmem
      rw [hid] at h2
      omega
  · intro i hi hall b2 hb2 hid2
    exact hall b2 hb2 hid2
  · intro i hi hall e2 he2 hid2
    rcases List.mem_append.mp he2 with h | h
    · exact hall e2 h hid2
    · rw [List.mem_singleton.mp h] at hid2
      rw [hid] at hid2
      omega

lemma stepOK_cancelSnd (st : Store) (p : Booking → Bool) :
    StepOK st { st with bookings := (findOneAndUpdate p setCancelled st.bookings).2 } := by
  refine ⟨le_refl _, ?_, ?_, ?_⟩
  · rintro ⟨hev, hbk, hevN, hbkN⟩
    refine ⟨hev, ?_, hevN, ?_⟩
    · intro b hb
      rcases mem_findOneAndUpdate_snd hb with h | ⟨x, hx, -, rfl⟩
      · exact hbk b h
      · exact hbk x hx
    · show ((updateFirst p setCancelled st.bookings).map Booking.id).Nodup
      rw [map_key_updateFirst Booking.id p setCancelled st.bookings (fun x => rfl)]
      exact hbkN
  · intro i hi hall b2 hb2 hid2
    rcases mem_findOneAndUpdate_snd hb2 with h | ⟨x, hx, -, rfl⟩
    · exact hall b2 h hid2
    · rfl
  · intro i hi hall e2 he2 hid2
    exact hall e2 he2 hid2

lemma stepOK_soft (st : Store) (pe : Event → Bool) (pb : Booking → Bool) :
    StepOK st { st with
      events := updateFirst pe (fun e => { e with status := EStatus.deleted }) st.events
      bookings := updateMany pb (fun b => { b with status := BStatus.cancelled })
        st.bookings } := by
  have hbkid : ∀ x : Booking,
      Booking.id (if pb x then { x with status := BStatus.cancelled } else x) = x.id := by
    intro x
    by_cases hc : pb x
    · rw [if_pos hc]
    · rw [if_neg hc]
  refine ⟨le_refl _, ?_, ?_, ?_⟩
  · rintro ⟨hev, hbk, hevN, hbkN⟩
    refine ⟨?_, ?_, ?_, ?_⟩
    · intro e he
      rcases mem_updateFirst he with h | ⟨x, hx, -, rfl⟩
      · exact hev e h
      · exact hev x hx
    · intro b hb
      rcases List.mem_map.mp hb with ⟨x, hx, rfl⟩
      rw [hbkid x]
      exact hbk x hx
    · show ((updateFirst pe (fun e => { e with status := EStatus.deleted })
        st.events).map Event.id).Nodup
      rw [map_key_updateFirst Event.id pe
        (fun e => { e with status := EStatus.deleted }) st.events (fun x => rfl)]
      exact hevN
    · show ((st.bookings.map (fun x =>
        if pb x then { x with status := BStatus.cancelled } else x)).map Booking.id).Nodup
      rw [map_key_map_of_preserve Booking.id _ st.bookings hbkid]
      exact hbkN
  · intro i hi hall b2 hb2 hid2
    rcases List.mem_map.mp hb2 with ⟨x, hx, rfl⟩
    by_cases hc : pb x
    · rw [if_pos hc]
    · rw [if_neg hc] at hid2 ⊢
      exact hall x hx hid2
  · intro i hi hall e2 he2 hid2
    rcases mem_updateFirst he2 with h | ⟨x, hx, -, rfl⟩
    · exact hall e2 h hid2
    · rfl

lemma stepOK_hard (st : Store) (pe : Event → Bool) (pb : Booking → Bool) :
    StepOK st { st with
      events := deleteOne pe st.events
      bookings := st.bookings.filter pb } := by
  refine ⟨le_refl _, ?_, ?_, ?_⟩
  · rintro ⟨hev, hbk, hevN, hbkN⟩
    refine ⟨?_, ?_, ?_, ?_⟩
    · intro e he
      exact hev e (mem_deleteOne he)
    · intro b hb
      exact hbk b (List.mem_filter.mp hb).1
    · exact List.Nodup.sublist (List.Sublist.map Event.id (deleteOne_sublist pe st.events))
        hevN
    · exact List.Nodup.sublist (List.Sublist.map Booking.id (List.filter_sublist st.bookings))
        hbkN
  · intro i hi hall b2 hb2 hid2
    exact hall b2 (List.mem_filter.mp hb2).1 hid2
  · intro i hi hall e2 he2 hid2
    exact hall e2 (mem_deleteOne he2) hid2

lemma handle_stepOK (st : Store) (r : Req) : StepOK st (handle st r).1 := by
  cases r with
  | root => exact stepOK_of_eq rfl
  | health => exact stepOK_of_eq rfl
  | listEvents => exact stepOK_of_eq rfl
  | unmatched => exact stepOK_of_eq rfl
  | listBookings q =>
    by_cases he : normEmail q = ""
    · exact stepOK_of_eq (by simp only [handle, bookingsListHandler, if_pos he])
    · exact stepOK_of_eq (by simp only [handle, bookingsListHandler, if_neg he])
  | createEvent b =>
    by_cases hc : b.title.getD "" = "" ∨ b.city.getD "" = "" ∨ b.date.getD "" = "" ∨
        b.price = none ∨ b.venue.getD "" = ""
    · exact stepOK_of_eq (by simp only [handle, eventsCreateHandler, if_pos hc])
    · rcases hcr : eventCreate st (b.title.getD "") (b.city.getD "") (b.date.getD "")
          (b.venue.getD "") (b.image.getD "") (b.description.getD "")
          (b.price.getD JSNum.nan) with _ | ⟨st2, ev⟩
      · exact stepOK_of_eq (by simp only [handle, eventsCreateHandler, if_neg hc, hcr])
      · obtain ⟨hid, -, hpush⟩ := eventCreate_some hcr
        have hsh : (handle st (Req.createEvent b)).1 = pushEvent st ev := by
          simp only [handle, eventsCreateHandler, if_neg hc, hcr]
          exact hpush
        rw [hsh]
        exact stepOK_pushEvent st ev hid
  | book b =>
    by_cases h1 : sanitizeTitle b.eventTitle = "" ∨ normEmail b.userEmail = ""
    · exact stepOK_of_eq (by simp only [handle, bookHandler, if_pos h1])
    · by_cases h2 : emailTest (normEmail b.userEmail) = false
      · exact stepOK_of_eq (by simp only [handle, bookHandler, if_neg h1, if_pos h2])
      · rcases hcr : bookingCreate st (sanitizeTitle b.eventTitle) (normEmail b.userEmail)
            (pickQuantity b) b.eventId with _ | ⟨st2, bk⟩
        · exact stepOK_of_eq
            (by simp only [handle, bookHandler, if_neg h1, if_neg h2, hcr])
        · obtain ⟨hid, -, -, hpush⟩ := bookingCreate_some hcr
          have hsh : (handle st (Req.book b)).1 = pushBooking st bk := by
            simp only [handle, bookHandler, if_neg h1, if_neg h2, hcr]
            exact hpush
          rw [hsh]
          exact stepOK_pushBooking st bk hid
  | deleteEvent i mode =>
    rcases hf : st.events.find? (fun e => e.id == i) with _ | ev
    · exact stepOK_of_eq (by simp only [handle, deleteEventHandler, hf])
    · by_cases hd : (ev.status == EStatus.deleted) = true
      · exact stepOK_of_eq (by simp only [handle, deleteEventHandler, hf, if_pos hd])
      · by_cases hm : jsLowerStr (if mode.getD "" = "" then "soft" else mode.getD "") = "hard"
        · have hsh : (handle st (Req.deleteEvent i mode)).1 =
              { st with
                events := deleteOne (fun e => e.id == i) st.events
                bookings := st.bookings.filter
                  (fun b => !(b.eventId == some i || b.eventTitle == ev.title)) } := by
            simp only [handle, deleteEventHandler, hf, if_neg hd, if_pos hm, deleteMany]
          rw [hsh]
          exact stepOK_hard st _ _
        · have hsh : (handle st (Req.deleteEvent i mode)).1 =
              { st with
                events := updateFirst (fun e => e.id == i)
                  (fun e => { e with status := EStatus.deleted }) st.events
                bookings := updateMany
                  (fun b => (b.eventId == some i || b.eventTitle == ev.title) &&
                    !(b.status == BStatus.cancelled))
                  (fun b => { b with status := BStatus.cancelled }) st.bookings } := by
            simp only [handle, deleteEventHandler, hf, if_neg hd, if_neg hm]
          rw [hsh]
          exact stepOK_soft st _ _
  | cancelById i =>
    rcases hfu : findOneAndUpdate (fun b => b.id == i) setCancelled st.bookings
        with ⟨o, bs⟩
    cases o with
    | none => exact stepOK_of_eq (by simp only [handle, cancelByIdHandler, hfu])
    | some doc =>
      have hsh : (handle st (Req.cancelById i)).1 =
          { st with bookings :=
            (findOneAndUpdate (fun b => b.id == i) setCancelled st.bookings).2 } := by
        simp only [handle, cancelByIdHandler, hfu]
      rw [hsh]
      exact stepOK_cancelSnd st _
  | cancelByQuery bid ue et =>
    rcases hcf : cancelFilter bid (normEmail ue) (sanitizeTitle et) with _ | p
    · exact stepOK_of_eq
        (by simp only [handle, cancelByQueryHandler, cancelCore, hcf])
    · rcases hfu : findOneAndUpdate p setCancelled st.bookings with ⟨o, bs⟩
      cases o with
      | none =>
        exact stepOK_of_eq
          (by simp only [handle, cancelByQueryHandler, cancelCore, hcf, hfu])
      | some doc =>
        have hsh : (handle st (Req.cancelByQuery bid ue et)).1 =
            { st with bookings := (findOneAndUpdate p setCancelled st.bookings).2 } := by
          simp only [handle, cancelByQueryHandler, cancelCore, hcf, hfu]
        rw [hsh]
        exact stepOK_cancelSnd st _
  | cancelPost b =>
    rcases hcf : cancelFilter ((b.bookingId.or b.mongoId).or b.plainId)
        (normEmail b.userEmail) (sanitizeTitle b.eventTitle) with _ | p
    · exact stepOK_of_eq
        (by simp only [handle, cancelPostHandler, cancelCore, hcf])
    · rcases hfu : findOneAndUpdate p setCancelled st.bookings with ⟨o, bs⟩
      cases o with
      | none =>
        exact stepOK_of_eq
          (by simp only [handle, cancelPostHandler, cancelCore, hcf, hfu])
      | some doc =>
        have hsh : (handle st (Req.cancelPost b)).1 =
            { st with bookings := (findOneAndUpdate p setCancelled st.bookings).2 } := by
          simp only [handle, cancelPostHandler, cancelCore, hcf, hfu]
        rw [hsh]
        exact stepOK_cancelSnd st _

lemma runReqs_stepOK (rs : List Req) (st : Store) : StepOK st (runReqs rs st) := by
  induction rs generalizing st with
  | nil => exact stepOK_of_eq rfl
  | cons r rs ih => exact StepOK.trans (handle_stepOK st r) (ih (handle st r).1)

lemma WF_initStore : WF initStore := by
  refine ⟨?_, ?_, ?_, ?_⟩ <;> simp [initStore]

lemma WF_runReqs (rs : List Req) (s : Store) (h : WF s) : WF (runReqs rs s) := by
  induction rs generalizing s with
  | nil => exact h
  | cons r rs ih => exact ih _ ((handle_stepOK s r).2.1 h)

lemma reachable_WF {st : Store} (h : Reachable st) : WF st := by
  obtain ⟨rs, hrs⟩ := h
  rw [← hrs]
  exact WF_runReqs rs initStore WF_initStore

/-- C1: from every reachable store, along every further request sequence, a
booking that is cancelled never shows up confirmed again under its id, and an
event that is deleted never shows up active again under its id. -/
theorem C1_no_status_resurrection (st : Store) (hst : Reachable st) (rs : List Req) :
    (∀ b ∈ st.bookings, b.status = BStatus.cancelled →
      ∀ b2 ∈ (runReqs rs st).bookings, b2.id = b.id → b2.status = BStatus.cancelled) ∧
    (∀ e ∈ st.events, e.status = EStatus.deleted →
      ∀ e2 ∈ (runReqs rs st).events, e2.id = e.id → e2.status = EStatus.deleted) := by
  obtain ⟨hev, hbk, hevN, hbkN⟩ := reachable_WF hst
  have hS := runReqs_stepOK rs st
  constructor
  · intro b hb hcan b2 hb2 hid2
    refine hS.2.2.1 b.id (hbk b hb) ?_ b2 hb2 hid2
    intro b' hb' hid'
    rw [List.inj_on_of_nodup_map hbkN hb' hb hid']
    exact hcan
  · intro e he hdel e2 he2 hid2
    refine hS.2.2.2 e.id (hev e he) ?_ e2 he2 hid2
    intro e' he' hid'
    rw [List.inj_on_of_nodup_map hevN he' he hid']
    exact hdel

/-- Witness for C1: in a store reached by booking then cancelling booking 1, a
further booking request leaves the cancelled status in place. -/
theorem C1_no_status_resurrection_witness :
    (⟨1, none, "T", "a@b.com", 1, BStatus.cancelled, 0⟩ : Booking).status =
      BStatus.cancelled := by
  exact (C1_no_status_resurrection
    ⟨[], [⟨1, none, "T", "a@b.com", 1, BStatus.cancelled, 0⟩], 2, 1⟩
    ⟨[Req.book ⟨some "T", some "a@b.com", none, none, none, none, none, none⟩,
      Req.cancelById 1], rfl⟩
    [Req.book ⟨some "T", some "a@b.com", none, none, none, none, none, none⟩]).1
    ⟨1, none, "T", "a@b.com", 1, BStatus.cancelled, 0⟩ (by decide) rfl
    ⟨1, none, "T", "a@b.com", 1, BStatus.cancelled, 0⟩ (by decide) rfl

end Eventify
